import Mathlib

/-!
Verification of the `vault-jwt-secrets` plugin core (files
`plugin/path_config.go` and `plugin/path_jwks.go`).

The development shallowly embeds the two request handlers with real logic:

* `pathConfigWrite` (path_config.go): validate-and-merge of a partial
  configuration update, persisted only when every check passes;
* `getPublicKeys` (path_jwks.go): translation of a versioned key-policy
  snapshot into a JSON Web Key set.

Machine integers (`int`, `time.Duration = int64`) are modelled as `Int`;
the `time.ParseDuration` overflow checks against `1 << 63` are carried out
on `Nat` exactly as in the Go source. External collaborators are explicit
parameters: the allowed algorithm / RSA-bit / reserved-claim sets (handed
to the validator, per the spec contract), the host lease-TTL ceiling, the
`regexp.Compile` success predicate, and the base64 / PEM / PKIX decoders
used by the JWKS builder.
-/

namespace JwtSecrets

/-- `1 << 63`, the bound used by the overflow checks in Go
`time.ParseDuration` (`uint64` arithmetic against `int64` range). -/
def twoPow63 : Nat := 9223372036854775808

/-- The mount configuration record (`Config` in config.go; the struct itself
is outside the provided sources, its fields are those read and written by
`pathConfigWrite` / `configResponse` plus the spec data model). Durations are
nanosecond counts (`time.Duration`). -/
structure Config where
  signatureAlgorithm : String
  rsaKeyBits : Int
  keyRotationPeriod : Int
  tokenTTL : Int
  setIAT : Bool
  setJTI : Bool
  setNBF : Bool
  issuer : String
  audiencePattern : String
  subjectPattern : String
  maxAudiences : Int
  allowedClaims : List String
deriving DecidableEq

/-- Go `leadingInt` (time/format.go): consume leading decimal digits with the
source's overflow checks; `none` models `errLeadingInt`. -/
def leadingIntAux : Nat → List Char → Option (Nat × List Char)
  | x, [] => some (x, [])
  | x, c :: rest =>
    if c < '0' || c > '9' then some (x, c :: rest)
    else if x > twoPow63 / 10 then none
    else
      let y := x * 10 + (c.toNat - 48)
      if y > twoPow63 then none
      else leadingIntAux y rest

/-- Go `leadingFraction` (time/format.go): consume fraction digits, tracking
the scale and silently discarding digits once accumulation would overflow. -/
def leadingFractionAux : Nat → Nat → Bool → List Char → Nat × Nat × List Char
  | x, scale, _, [] => (x, scale, [])
  | x, scale, overflow, c :: rest =>
    if c < '0' || c > '9' then (x, scale, c :: rest)
    else if overflow then leadingFractionAux x scale overflow rest
    else if x > (twoPow63 - 1) / 10 then leadingFractionAux x scale true rest
    else
      let y := x * 10 + (c.toNat - 48)
      if y > twoPow63 then leadingFractionAux x scale true rest
      else leadingFractionAux y (scale * 10) false rest

/-- A character at which the unit scan of `ParseDuration` stops. -/
def isDigitOrDot (c : Char) : Bool := c = '.' || ('0' ≤ c && c ≤ '9')

/-- Split off the unit token: the longest run of characters that are neither
digits nor a dot (the unit scan loop of `ParseDuration`). -/
def takeUnit : List Char → List Char × List Char
  | [] => ([], [])
  | c :: rest =>
    if isDigitOrDot c then ([], c :: rest)
    else
      let p := takeUnit rest
      (c :: p.1, p.2)

/-- Go `unitMap`: nanoseconds per unit token. -/
def unitValue : List Char → Option Nat
  | ['n', 's'] => some 1
  | ['u', 's'] => some 1000
  | ['µ', 's'] => some 1000
  | ['μ', 's'] => some 1000
  | ['m', 's'] => some 1000000
  | ['s'] => some 1000000000
  | ['m'] => some 60000000000
  | ['h'] => some 3600000000000
  | _ => none

/-- Main loop of Go `time.ParseDuration` over the remaining characters, one
iteration per `[0-9]*(\.[0-9]*)?unit` group. The fuel only bounds recursion:
every iteration consumes at least the (nonempty) unit token, so
`length + 1` fuel never runs out. Go computes the fractional contribution
through `float64`; the exact truncated division below agrees with it on all
inputs whose fraction is representable (in particular on every canonical
duration string). -/
def parseDurationLoop : Nat → Nat → List Char → Option Nat
  | 0, _, _ => none
  | _ + 1, d, [] => some d
  | fuel + 1, d, c :: s0 =>
    if ¬(c = '.' ∨ ('0' ≤ c ∧ c ≤ '9')) then none
    else
      match leadingIntAux 0 (c :: s0) with
      | none => none
      | some (v, s1) =>
        let pre : Bool := decide ((c :: s0).length ≠ s1.length)
        let step2 : Nat × Nat × List Char × Bool :=
          match s1 with
          | '.' :: rest =>
            let r := leadingFractionAux 0 1 false rest
            (r.1, r.2.1, r.2.2, decide (rest.length ≠ r.2.2.length))
          | _ => (0, 1, s1, false)
        let f := step2.1
        let scale := step2.2.1
        let s2 := step2.2.2.1
        let post := step2.2.2.2
        if pre = false ∧ post = false then none
        else
          let up := takeUnit s2
          if up.1 = [] then none
          else
            match unitValue up.1 with
            | none => none
            | some unit =>
              if v > twoPow63 / unit then none
              else
                let v1 := v * unit
                let v2 := if f > 0 then v1 + f * unit / scale else v1
                if v2 > twoPow63 then none
                else
                  let d1 := d + v2
                  if d1 > twoPow63 then none
                  else parseDurationLoop fuel d1 up.2

/-- Shallow embedding of Go `time.ParseDuration` (time/format.go), returning
the duration in nanoseconds, `none` on any parse error. -/
def goParseDuration (str : String) : Option Int :=
  let s0 := str.data
  let signed : Bool × List Char :=
    match s0 with
    | '-' :: rest => (true, rest)
    | '+' :: rest => (false, rest)
    | rest => (false, rest)
  let neg := signed.1
  let s := signed.2
  if s = ['0'] then some 0
  else if s = [] then none
  else
    match parseDurationLoop (s.length + 1) 0 s with
    | none => none
    | some d =>
      if neg then some (-(d : Int))
      else if d > twoPow63 - 1 then none
      else some ((d : Int))

/-- Decimal digit to character. -/
def digitToChar (n : Nat) : Char := Char.ofNat (48 + n)

/-- Go `fmtFrac` (time/time.go): format the fraction `v / 10 ^ prec`,
omitting trailing zeros and the decimal point when the fraction is zero;
returns the fraction text (built right to left) and `v / 10 ^ prec`. -/
def fmtFrac : Nat → Nat → String → Bool → String × Nat
  | v, 0, acc, printed => (if printed then "." ++ acc else "", v)
  | v, prec + 1, acc, printed =>
    let digit := v % 10
    let printed1 := printed || (digit != 0)
    let acc1 := if printed1 then String.singleton (digitToChar digit) ++ acc else acc
    fmtFrac (v / 10) prec acc1 printed1

/-- Shallow embedding of Go `time.Duration.String` (time/time.go). -/
def goDurationString (d : Int) : String :=
  let u := d.natAbs
  let core :=
    if u < 1000000000 then
      if u = 0 then "0s"
      else if u < 1000 then toString u ++ "ns"
      else if u < 1000000 then
        let fr := fmtFrac u 3 "" false
        toString fr.2 ++ fr.1 ++ "µs"
      else
        let fr := fmtFrac u 6 "" false
        toString fr.2 ++ fr.1 ++ "ms"
    else
      let fr := fmtFrac u 9 "" false
      let secs := fr.2
      let sPart := toString (secs % 60) ++ fr.1 ++ "s"
      let mins := secs / 60
      if mins > 0 then
        let withM := toString (mins % 60) ++ "m" ++ sPart
        let hours := mins / 60
        if hours > 0 then toString hours ++ "h" ++ withM else withM
      else sPart
  if d < 0 then "-" ++ core else core

/-- Outcome shapes of the `pathConfigWrite` handler, distinguished exactly as
the Go return statements are:
* `invalidRequest msg` — `logical.ErrorResponse(msg), logical.ErrInvalidRequest`
  (the spec's ValidationError surface);
* `respErr msg` — `logical.ErrorResponse(msg), err` with the raw underlying
  error (the two regexp branches);
* `internalErr` — `nil, err` (the two `time.ParseDuration` branches and
  storage failures): no error response, the raw error propagates. -/
inductive WriteError where
  | invalidRequest (msg : String)
  | respErr (msg : String)
  | internalErr
deriving DecidableEq

/-- The partial update request: one optional value per field key the handler
consults via `d.GetOk` (path_config.go declares `issuer` in the field schema
but `pathConfigWrite` never reads it and `configResponse` never returns it).
The framework coercion to each field's declared type is assumed, so the
runtime type assertions of the source always succeed here. -/
structure UpdateFields where
  sigAlg : Option String
  rsaKeyBits : Option Int
  keyTTL : Option String
  jwtTTL : Option String
  setIAT : Option Bool
  setJTI : Option Bool
  setNBF : Option Bool
  audiencePattern : Option String
  subjectPattern : Option String
  maxAudiences : Option Int
  allowedClaims : Option (List String)
deriving DecidableEq

/-- Go `%s` rendering of a string slice, used in the `sig_alg` error text. -/
def formatStringList (xs : List String) : String :=
  "[" ++ String.intercalate " " xs ++ "]"

/-- Go `%s` rendering of an int slice, used in the `rsa_key_bits` error text. -/
def formatIntList (xs : List Int) : String :=
  "[" ++ String.intercalate " " (xs.map toString) ++ "]"

/-- path_config.go lines 134-143: overlay and validate `sig_alg`. -/
def applySigAlg (allowedAlgs : List String) (d : UpdateFields) (c : Config) :
    Except WriteError Config :=
  match d.sigAlg with
  | none => .ok c
  | some a =>
    if a ∈ allowedAlgs then .ok { c with signatureAlgorithm := a }
    else .error (.invalidRequest
      ("unknown/unsupported signature algorithm, must be one of " ++ formatStringList allowedAlgs))

/-- path_config.go lines 145-154: overlay and validate `rsa_key_bits`. -/
def applyRSAKeyBits (allowedBits : List Int) (d : UpdateFields) (c : Config) :
    Except WriteError Config :=
  match d.rsaKeyBits with
  | none => .ok c
  | some b =>
    if b ∈ allowedBits then .ok { c with rsaKeyBits := b }
    else .error (.invalidRequest
      ("unsupported rsa_key_bits, must be one of " ++ formatIntList allowedBits))

/-- path_config.go lines 156-162: overlay `key_ttl`; a parse failure returns
the raw error with no response (`return nil, err`). -/
def applyKeyTTL (d : UpdateFields) (c : Config) : Except WriteError Config :=
  match d.keyTTL with
  | none => .ok c
  | some s =>
    match goParseDuration s with
    | none => .error .internalErr
    | some dur => .ok { c with keyRotationPeriod := dur }

/-- path_config.go lines 164-170: overlay `jwt_ttl`; a parse failure returns
the raw error with no response (`return nil, err`). -/
def applyJwtTTL (d : UpdateFields) (c : Config) : Except WriteError Config :=
  match d.jwtTTL with
  | none => .ok c
  | some s =>
    match goParseDuration s with
    | none => .error .internalErr
    | some dur => .ok { c with tokenTTL := dur }

/-- path_config.go lines 172-174: overlay `set_iat`. -/
def applySetIAT (d : UpdateFields) (c : Config) : Except WriteError Config :=
  match d.setIAT with
  | none => .ok c
  | some b => .ok { c with setIAT := b }

/-- path_config.go lines 176-178: overlay `set_jti`. -/
def applySetJTI (d : UpdateFields) (c : Config) : Except WriteError Config :=
  match d.setJTI with
  | none => .ok c
  | some b => .ok { c with setJTI := b }

/-- path_config.go lines 180-182: overlay `set_nbf`. -/
def applySetNBF (d : UpdateFields) (c : Config) : Except WriteError Config :=
  match d.setNBF with
  | none => .ok c
  | some b => .ok { c with setNBF := b }

/-- path_config.go lines 184-190: overlay `audience_pattern` (assigned first,
then compiled; `regexOk` stands for `regexp.Compile` succeeding). -/
def applyAudiencePattern (regexOk : String → Bool) (d : UpdateFields) (c : Config) :
    Except WriteError Config :=
  match d.audiencePattern with
  | none => .ok c
  | some pat =>
    let c1 := { c with audiencePattern := pat }
    if regexOk pat then .ok c1 else .error (.respErr "invalid audience pattern")

/-- path_config.go lines 192-198: overlay `subject_pattern`. -/
def applySubjectPattern (regexOk : String → Bool) (d : UpdateFields) (c : Config) :
    Except WriteError Config :=
  match d.subjectPattern with
  | none => .ok c
  | some pat =>
    let c1 := { c with subjectPattern := pat }
    if regexOk pat then .ok c1 else .error (.respErr "invalid subject pattern")

/-- path_config.go lines 200-202: overlay `max_audiences` (no check beyond
the framework's integer typing; `-1` passes through). -/
def applyMaxAudiences (d : UpdateFields) (c : Config) : Except WriteError Config :=
  match d.maxAudiences with
  | none => .ok c
  | some m => .ok { c with maxAudiences := m }

/-- The reserved-claim loop of path_config.go lines 207-211: first element of
the list that belongs to `reserved` (Go returns on the first hit). -/
def findReserved (reserved : List String) : List String → Option String
  | [] => none
  | x :: rest => if x ∈ reserved then some x else findReserved reserved rest

/-- path_config.go lines 204-214: overlay `allowed_claims`, rejecting any
claim name that is in the reserved set. -/
def applyAllowedClaims (reserved : List String) (d : UpdateFields) (c : Config) :
    Except WriteError Config :=
  match d.allowedClaims with
  | none => .ok c
  | some cs =>
    match findReserved reserved cs with
    | some claim => .error (.invalidRequest
        ("\x27" ++ claim ++ "\x27 claim is reserved and not permitted in allowed_claims"))
    | none => .ok { c with allowedClaims := cs }

/-- The per-field overlay phase of `pathConfigWrite`, in source order;
the first failing check aborts (each Go branch returns immediately). -/
def applyFields (regexOk : String → Bool) (allowedAlgs : List String)
    (allowedBits : List Int) (reserved : List String)
    (d : UpdateFields) (c : Config) : Except WriteError Config :=
  Except.bind (applySigAlg allowedAlgs d c) fun c1 =>
  Except.bind (applyRSAKeyBits allowedBits d c1) fun c2 =>
  Except.bind (applyKeyTTL d c2) fun c3 =>
  Except.bind (applyJwtTTL d c3) fun c4 =>
  Except.bind (applySetIAT d c4) fun c5 =>
  Except.bind (applySetJTI d c5) fun c6 =>
  Except.bind (applySetNBF d c6) fun c7 =>
  Except.bind (applyAudiencePattern regexOk d c7) fun c8 =>
  Except.bind (applySubjectPattern regexOk d c8) fun c9 =>
  Except.bind (applyMaxAudiences d c9) fun c10 =>
  applyAllowedClaims reserved d c10

/-- The error text of path_config.go line 217 (`'%s' is greater that the max
lease ttl` formatted with `keyTokenTTL = "jwt_ttl"`; the typo is the
source's). -/
def jwtTTLCeilingMsg : String := "\x27jwt_ttl\x27 is greater that the max lease ttl"

/-- path_config.go lines 128-225 (`pathConfigWrite`): read the current config,
overlay every supplied field with its check, then the unconditional cross
check `config.TokenTTL > b.System().MaxLeaseTTL()` (line 216), and only then
hand the candidate to `saveConfig`. `.ok` carries the config that is
persisted and echoed; any `.error` leaves storage untouched. -/
def pathConfigWrite (regexOk : String → Bool) (allowedAlgs : List String)
    (allowedBits : List Int) (reserved : List String) (maxLeaseTTL : Int)
    (d : UpdateFields) (c : Config) : Except WriteError Config :=
  Except.bind (applyFields regexOk allowedAlgs allowedBits reserved d c) fun c1 =>
  if c1.tokenTTL > maxLeaseTTL then .error (.invalidRequest jwtTTLCeilingMsg)
  else .ok c1

/-- The stored configuration after a write request: `saveConfig` runs only on
the success path, so an error leaves the prior record in place. -/
def writeStored (regexOk : String → Bool) (allowedAlgs : List String)
    (allowedBits : List Int) (reserved : List String) (maxLeaseTTL : Int)
    (d : UpdateFields) (stored : Config) : Config :=
  match pathConfigWrite regexOk allowedAlgs allowedBits reserved maxLeaseTTL d stored with
  | .ok c => c
  | .error _ => stored

/-- The field map returned by `configResponse` (path_config.go lines 245-261):
exactly the eleven keys it emits, with both durations rendered via
`Duration.String()`. -/
structure ConfigResponse where
  sigAlg : String
  rsaKeyBits : Int
  keyTTL : String
  jwtTTL : String
  setIAT : Bool
  setJTI : Bool
  setNBF : Bool
  audiencePattern : String
  subjectPattern : String
  maxAudiences : Int
  allowedClaims : List String
deriving DecidableEq

/-- path_config.go lines 245-261 (`configResponse`). -/
def configResponse (c : Config) : ConfigResponse :=
  { sigAlg := c.signatureAlgorithm
    rsaKeyBits := c.rsaKeyBits
    keyTTL := goDurationString c.keyRotationPeriod
    jwtTTL := goDurationString c.tokenTTL
    setIAT := c.setIAT
    setJTI := c.setJTI
    setNBF := c.setNBF
    audiencePattern := c.audiencePattern
    subjectPattern := c.subjectPattern
    maxAudiences := c.maxAudiences
    allowedClaims := c.allowedClaims }

/-- Whether a write outcome is surfaced the way the per-field validation
failures are: an error response paired with `logical.ErrInvalidRequest`. -/
def isValidationResponse : Except WriteError Config → Bool
  | .error (.invalidRequest _) => true
  | _ => false

/-- The key-family tag of a policy (`keysutil.KeyType`); the JWKS builder
only ever compares it against `KeyType_ED25519`, the other constructors
stand for the remaining families. -/
inductive KeyType where
  | ed25519
  | ecdsaP256
  | rsa2048
deriving DecidableEq

/-- One key version of the policy (`keysutil.KeyEntry`), restricted to the
two fields `getPublicKeys` reads: the formatted public key string and the
(optional) directly-typed RSA key, whose public component is an opaque
token here. -/
structure KeyVersion where
  formattedPublicKey : String
  rsaKey : Option Nat
deriving DecidableEq

/-- The key-policy snapshot (`keysutil.Policy`) as read under the shared
lock: name, live version range, key family, and the version-indexed key
mapping (Go keys the map by `strconv.Itoa(version)`; `Nat` keys are
equivalent since `Itoa` is injective). -/
structure Policy where
  name : String
  latestVersion : Nat
  minDecryptionVersion : Nat
  type : KeyType
  keys : List (Nat × KeyVersion)
deriving DecidableEq

/-- The key material a JWK slot can carry (`jose.JSONWebKey.Key`): nothing
(the zero value — also what the fall-through branch leaves), raw Edwards
public-key bytes, a PKIX-parsed public key, or an RSA public key. -/
inductive KeyMaterial where
  | empty
  | ed25519 (bytes : List Nat)
  | pkix (parsed : Nat)
  | rsaPublic (key : Nat)
deriving DecidableEq

/-- The fields of `jose.JSONWebKey` that `getPublicKeys` assigns. -/
structure JSONWebKey where
  key : KeyMaterial
  keyID : String
  algorithm : String
  use : String
deriving DecidableEq

/-- The zero `jose.JSONWebKey` produced by `make([]jose.JSONWebKey, n)`. -/
def zeroJWK : JSONWebKey := { key := .empty, keyID := "", algorithm := "", use := "" }

/-- The external decoding collaborators of the builder: Go standard library
`base64.StdEncoding.DecodeString`, `pem.Decode` (the block bytes, `none`
for a nil block), and `x509.ParsePKIXPublicKey` (an opaque parsed key). -/
structure Codecs where
  base64Decode : String → Option (List Nat)
  pemDecode : String → Option (List Nat)
  parsePKIX : List Nat → Option Nat

/-- Go map lookup `policy.Keys[strconv.Itoa(version)]`. -/
def lookupKey (p : Policy) (version : Nat) : Option KeyVersion :=
  (p.keys.find? (fun kv => kv.1 == version)).map (fun kv => kv.2)

/-- Modelled from the spec: `createKeyId` is defined outside the provided
sources; the spec states only that it is a pure deterministic function of
the backend (registry) identity, the policy name, and the version, stable
across restarts. Any injective-enough pure function represents it; the
claims below use nothing beyond purity. -/
def createKeyId (bid : String) (name : String) (version : Nat) : String :=
  bid ++ ":" ++ name ++ ":" ++ toString version

/-- The JWK written into the slot for `version` in path_jwks.go lines
123-125: derived key id, the currently configured algorithm string, and
`use = "sig"`. -/
def mkJWK (bid : String) (config : Config) (p : Policy) (version : Nat)
    (m : KeyMaterial) : JSONWebKey :=
  { key := m
    keyID := createKeyId bid p.name version
    algorithm := config.signatureAlgorithm
    use := "sig" }

/-- One iteration of the version loop of `getPublicKeys` (path_jwks.go lines
92-127) on the state (keys slice, `keyIdx`). An absent version and every
decode/parse failure `continue` without touching the state; every other
path assigns slot `keyIdx` and increments it — including the fall-through
where the family is not ED25519, the formatted key is empty and no RSA key
is present: no branch assigns `.Key`, yet lines 123-126 still run. -/
def stepVersion (cd : Codecs) (bid : String) (config : Config) (p : Policy)
    (st : List JSONWebKey × Nat) (version : Nat) : List JSONWebKey × Nat :=
  match lookupKey p version with
  | none => st
  | some key =>
    if p.type = KeyType.ed25519 then
      match cd.base64Decode key.formattedPublicKey with
      | none => st
      | some keyBytes =>
        (st.1.set st.2 (mkJWK bid config p version (.ed25519 keyBytes)), st.2 + 1)
    else if key.formattedPublicKey ≠ "" then
      match cd.pemDecode key.formattedPublicKey with
      | none => st
      | some blockBytes =>
        match cd.parsePKIX blockBytes with
        | none => st
        | some publicKey =>
          (st.1.set st.2 (mkJWK bid config p version (.pkix publicKey)), st.2 + 1)
    else
      match key.rsaKey with
      | some rsaKey =>
        (st.1.set st.2 (mkJWK bid config p version (.rsaPublic rsaKey)), st.2 + 1)
      | none =>
        (st.1.set st.2 (mkJWK bid config p version .empty), st.2 + 1)

/-- path_jwks.go line 84: `(policy.LatestVersion - policy.MinDecryptionVersion) + 1`
(the snapshot invariant keeps `minDecryptionVersion ≤ latestVersion`, so
the `Nat` subtraction agrees with Go's `int` one). -/
def keyCount (p : Policy) : Nat := p.latestVersion - p.minDecryptionVersion + 1

/-- The versions the loop iterates, ascending from `minDecryptionVersion`
to `latestVersion` inclusive. -/
def versionRange (p : Policy) : List Nat := List.range' p.minDecryptionVersion (keyCount p)

/-- path_jwks.go lines 69-130 (`getPublicKeys`): allocate a slice of
`keyCount` zero JWKs (`make([]jose.JSONWebKey, keyCount)` — length, not
capacity), then run the version loop over it. The returned list is
`jwkSet.Keys`. -/
def getPublicKeys (cd : Codecs) (bid : String) (config : Config) (p : Policy) :
    List JSONWebKey :=
  ((versionRange p).foldl (stepVersion cd bid config p)
    (List.replicate (keyCount p) zeroJWK, 0)).1

/-- path_jwks.go lines 47-66 (`pathJwksRead`): marshal
`{"keys": jwkSet.Keys}` and wrap it in a 200 response. go-jose's
`JSONWebKey.MarshalJSON` type-switches on the key material and hits its
default error case on a nil key, so `json.Marshal` fails — and the handler
returns `nil, err`, producing no response — as soon as any entry carries no
key material (a zero-valued padding slot or a fall-through entry). The
materials this policy can hold otherwise (Edwards bytes, PKIX-parsed
EC/RSA keys, RSA public keys) all marshal. `.some ks` is a successful
response whose body serializes the keys `ks`; `.none` is the error path. -/
def pathJwksRead (cd : Codecs) (bid : String) (config : Config) (p : Policy) :
    Option (List JSONWebKey) :=
  if (getPublicKeys cd bid config p).all (fun k => !(k.key == KeyMaterial.empty))
  then some (getPublicKeys cd bid config p) else none

/-- The key material the loop would attach for `version`: `none` when the
version is absent from the mapping or a decode/parse step fails (the
`continue` paths), otherwise the material written into the slot
(`.empty` on the fall-through branch). -/
def materialFor (cd : Codecs) (p : Policy) (version : Nat) : Option KeyMaterial :=
  match lookupKey p version with
  | none => none
  | some key =>
    if p.type = KeyType.ed25519 then
      match cd.base64Decode key.formattedPublicKey with
      | none => none
      | some keyBytes => some (.ed25519 keyBytes)
    else if key.formattedPublicKey ≠ "" then
      match cd.pemDecode key.formattedPublicKey with
      | none => none
      | some blockBytes =>
        match cd.parsePKIX blockBytes with
        | none => none
        | some publicKey => some (.pkix publicKey)
    else
      match key.rsaKey with
      | some rsaKey => some (.rsaPublic rsaKey)
      | none => some .empty

/-- The JWK entries the loop writes for the versions `vs`, in iteration
order: one per version whose material resolves. -/
def buildEntries (cd : Codecs) (bid : String) (config : Config) (p : Policy)
    (vs : List Nat) : List JSONWebKey :=
  vs.filterMap (fun v => (materialFor cd p v).map (mkJWK bid config p v))

theorem exbind_ok {ε α β : Type} (a : α) (f : α → Except ε β) :
    Except.bind (Except.ok a) f = f a := rfl

theorem exbind_err {ε α β : Type} (e : ε) (f : α → Except ε β) :
    Except.bind (Except.error e) f = Except.error e := rfl

/-- One loop iteration, re-expressed through `materialFor`: an iteration
either leaves the state alone or writes `mkJWK` of the resolved material
into slot `keyIdx` and increments `keyIdx`. -/
theorem stepVersion_eq (cd : Codecs) (bid : String) (config : Config) (p : Policy)
    (st : List JSONWebKey × Nat) (version : Nat) :
    stepVersion cd bid config p st version =
      match materialFor cd p version with
      | none => st
      | some m => (st.1.set st.2 (mkJWK bid config p version m), st.2 + 1) := by
  unfold stepVersion materialFor
  cases lookupKey p version with
  | none => rfl
  | some key =>
    dsimp only
    by_cases ht : p.type = KeyType.ed25519
    · rw [if_pos ht, if_pos ht]
      cases cd.base64Decode key.formattedPublicKey <;> rfl
    · rw [if_neg ht, if_neg ht]
      by_cases hf : key.formattedPublicKey ≠ ""
      · rw [if_pos hf, if_pos hf]
        cases cd.pemDecode key.formattedPublicKey with
        | none => rfl
        | some blockBytes =>
          dsimp only
          cases cd.parsePKIX blockBytes <;> rfl
      · rw [if_neg hf, if_neg hf]
        cases key.rsaKey <;> rfl

theorem set_append_self {α : Type} (pre rest : List α) (e : α) :
    (pre ++ rest).set pre.length e = pre ++ rest.set 0 e := by
  induction pre with
  | nil => simp
  | cons a l ih => simp [List.set, ih]

/-- Loop invariant of the version loop: starting from a state whose first
`pre.length` slots hold `pre` and whose `keyIdx` points just past them,
folding the remaining versions writes `buildEntries` over the next slots
and leaves the tail of the old contents beyond them. -/
theorem foldl_stepVersion_spec (cd : Codecs) (bid : String) (config : Config)
    (p : Policy) :
    ∀ (vs : List Nat) (pre rest : List JSONWebKey), vs.length ≤ rest.length →
      vs.foldl (stepVersion cd bid config p) (pre ++ rest, pre.length) =
        (pre ++ buildEntries cd bid config p vs ++
           rest.drop (buildEntries cd bid config p vs).length,
         pre.length + (buildEntries cd bid config p vs).length) := by
  intro vs
  induction vs with
  | nil => intro pre rest _; simp [buildEntries]
  | cons v vs ih =>
    intro pre rest h
    rw [List.foldl_cons, stepVersion_eq]
    cases hm : materialFor cd p v with
    | none =>
      have hlen : vs.length ≤ rest.length := by
        simp only [List.length_cons] at h; omega
      rw [ih pre rest hlen]
      simp [buildEntries, List.filterMap_cons, hm]
    | some m =>
      cases rest with
      | nil => simp at h
      | cons r rs =>
        have hset : (pre ++ r :: rs).set pre.length (mkJWK bid config p v m) =
            (pre ++ [mkJWK bid config p v m]) ++ rs := by
          rw [set_append_self]
          simp [List.set]
        simp only [hset]
        have hlen : vs.length ≤ rs.length := by
          simp only [List.length_cons] at h; omega
        have hpre : (pre ++ [mkJWK bid config p v m]).length = pre.length + 1 := by
          simp
        rw [← hpre, ih (pre ++ [mkJWK bid config p v m]) rs hlen]
        simp only [buildEntries, List.filterMap_cons, hm, Option.map_some',
          List.length_cons, List.cons_append, List.drop_succ_cons,
          List.append_assoc, List.singleton_append, hpre, Prod.mk.injEq]
        exact ⟨rfl, by omega⟩

/-- `getPublicKeys` in closed form: the entries of the surviving versions,
in iteration order, followed by the untouched zero slots of the
preallocated slice. -/
theorem getPublicKeys_eq (cd : Codecs) (bid : String) (config : Config) (p : Policy) :
    getPublicKeys cd bid config p =
      buildEntries cd bid config p (versionRange p) ++
        List.replicate (keyCount p - (buildEntries cd bid config p (versionRange p)).length)
          zeroJWK := by
  have hlen : (versionRange p).length ≤ (List.replicate (keyCount p) zeroJWK).length := by
    simp [versionRange]
  have h := foldl_stepVersion_spec cd bid config p (versionRange p) []
    (List.replicate (keyCount p) zeroJWK) hlen
  simp only [List.nil_append, List.length_nil, Nat.zero_add] at h
  unfold getPublicKeys
  rw [h, List.drop_replicate]

/-- The number of emitted entries never exceeds the slot count. -/
theorem buildEntries_length_le (cd : Codecs) (bid : String) (config : Config)
    (p : Policy) :
    (buildEntries cd bid config p (versionRange p)).length ≤ keyCount p := by
  have h := List.length_filterMap_le
    (fun v => (materialFor cd p v).map (mkJWK bid config p v)) (versionRange p)
  simpa [buildEntries, versionRange] using h

theorem exbind_error_chain {ε α β : Type} (m : Except ε α) (f : α → Except ε β)
    (h : ∀ a, ∃ e, f a = .error e) : ∃ e, Except.bind m f = .error e := by
  cases m with
  | error e => exact ⟨e, rfl⟩
  | ok a => exact h a

theorem exbind_error_left {ε α β : Type} (m : Except ε α) (f : α → Except ε β)
    (h : ∃ e, m = .error e) : ∃ e, Except.bind m f = .error e := by
  obtain ⟨e, he⟩ := h
  exact ⟨e, by rw [he]; rfl⟩

theorem findReserved_isSome (reserved cs : List String) (x : String)
    (hx : x ∈ cs) (hr : x ∈ reserved) : ∃ y, findReserved reserved cs = some y := by
  induction cs with
  | nil => cases hx
  | cons c rest ih =>
    by_cases hc : c ∈ reserved
    · exact ⟨c, by simp [findReserved, hc]⟩
    · have hx2 : x ∈ rest := by
        cases hx with
        | head => exact absurd hr hc
        | tail _ h => exact h
      obtain ⟨y, hy⟩ := ih hx2
      exact ⟨y, by simp [findReserved, hc, hy]⟩

theorem applyAllowedClaims_error (reserved : List String) (d : UpdateFields)
    (cs : List String) (x : String) (hcs : d.allowedClaims = some cs)
    (hx : x ∈ cs) (hr : x ∈ reserved) :
    ∀ c, ∃ e, applyAllowedClaims reserved d c = .error e := by
  intro c
  obtain ⟨y, hy⟩ := findReserved_isSome reserved cs x hx hr
  exact ⟨.invalidRequest ("\x27" ++ y ++ "\x27 claim is reserved and not permitted in allowed_claims"),
    by simp [applyAllowedClaims, hcs, hy]⟩

theorem applySigAlg_tokenTTL (allowedAlgs : List String) (d : UpdateFields)
    (c c' : Config) (h : applySigAlg allowedAlgs d c = .ok c') :
    c'.tokenTTL = c.tokenTTL := by
  unfold applySigAlg at h
  cases hs : d.sigAlg with
  | none => rw [hs] at h; cases h; rfl
  | some a =>
    rw [hs] at h
    dsimp only at h
    by_cases hm : a ∈ allowedAlgs
    · rw [if_pos hm] at h; cases h; rfl
    · rw [if_neg hm] at h; cases h

theorem applyRSAKeyBits_tokenTTL (allowedBits : List Int) (d : UpdateFields)
    (c c' : Config) (h : applyRSAKeyBits allowedBits d c = .ok c') :
    c'.tokenTTL = c.tokenTTL := by
  unfold applyRSAKeyBits at h
  cases hs : d.rsaKeyBits with
  | none => rw [hs] at h; cases h; rfl
  | some b =>
    rw [hs] at h
    dsimp only at h
    by_cases hm : b ∈ allowedBits
    · rw [if_pos hm] at h; cases h; rfl
    · rw [if_neg hm] at h; cases h

theorem applyKeyTTL_tokenTTL (d : UpdateFields) (c c' : Config)
    (h : applyKeyTTL d c = .ok c') : c'.tokenTTL = c.tokenTTL := by
  unfold applyKeyTTL at h
  cases hs : d.keyTTL with
  | none => rw [hs] at h; cases h; rfl
  | some s =>
    rw [hs] at h
    dsimp only at h
    cases hp : goParseDuration s with
    | none => rw [hp] at h; cases h
    | some dur => rw [hp] at h; cases h; rfl

theorem applyJwtTTL_tokenTTL (d : UpdateFields) (c c' : Config)
    (hj : d.jwtTTL = none) (h : applyJwtTTL d c = .ok c') :
    c'.tokenTTL = c.tokenTTL := by
  unfold applyJwtTTL at h
  rw [hj] at h
  cases h; rfl

theorem applySetIAT_tokenTTL (d : UpdateFields) (c c' : Config)
    (h : applySetIAT d c = .ok c') : c'.tokenTTL = c.tokenTTL := by
  unfold applySetIAT at h
  cases hs : d.setIAT with
  | none => rw [hs] at h; cases h; rfl
  | some b => rw [hs] at h; cases h; rfl

theorem applySetJTI_tokenTTL (d : UpdateFields) (c c' : Config)
    (h : applySetJTI d c = .ok c') : c'.tokenTTL = c.tokenTTL := by
  unfold applySetJTI at h
  cases hs : d.setJTI with
  | none => rw [hs] at h; cases h; rfl
  | some b => rw [hs] at h; cases h; rfl

theorem applySetNBF_tokenTTL (d : UpdateFields) (c c' : Config)
    (h : applySetNBF d c = .ok c') : c'.tokenTTL = c.tokenTTL := by
  unfold applySetNBF at h
  cases hs : d.setNBF with
  | none => rw [hs] at h; cases h; rfl
  | some b => rw [hs] at h; cases h; rfl

theorem applyAudiencePattern_tokenTTL (regexOk : String → Bool) (d : UpdateFields)
    (c c' : Config) (h : applyAudiencePattern regexOk d c = .ok c') :
    c'.tokenTTL = c.tokenTTL := by
  unfold applyAudiencePattern at h
  cases hs : d.audiencePattern with
  | none => rw [hs] at h; cases h; rfl
  | some pat =>
    rw [hs] at h
    dsimp only at h
    by_cases hr : regexOk pat = true
    · rw [if_pos hr] at h; cases h; rfl
    · rw [if_neg hr] at h; cases h

theorem applySubjectPattern_tokenTTL (regexOk : String → Bool) (d : UpdateFields)
    (c c' : Config) (h : applySubjectPattern regexOk d c = .ok c') :
    c'.tokenTTL = c.tokenTTL := by
  unfold applySubjectPattern at h
  cases hs : d.subjectPattern with
  | none => rw [hs] at h; cases h; rfl
  | some pat =>
    rw [hs] at h
    dsimp only at h
    by_cases hr : regexOk pat = true
    · rw [if_pos hr] at h; cases h; rfl
    · rw [if_neg hr] at h; cases h

theorem applyMaxAudiences_tokenTTL (d : UpdateFields) (c c' : Config)
    (h : applyMaxAudiences d c = .ok c') : c'.tokenTTL = c.tokenTTL := by
  unfold applyMaxAudiences at h
  cases hs : d.maxAudiences with
  | none => rw [hs] at h; cases h; rfl
  | some m => rw [hs] at h; cases h; rfl

theorem applyAllowedClaims_tokenTTL (reserved : List String) (d : UpdateFields)
    (c c' : Config) (h : applyAllowedClaims reserved d c = .ok c') :
    c'.tokenTTL = c.tokenTTL := by
  unfold applyAllowedClaims at h
  cases hs : d.allowedClaims with
  | none => rw [hs] at h; cases h; rfl
  | some cs =>
    rw [hs] at h
    dsimp only at h
    cases hf : findReserved reserved cs with
    | none => rw [hf] at h; cases h; rfl
    | some claim => rw [hf] at h; cases h

theorem bind_preserves_tokenTTL {m : Except WriteError Config}
    {f : Config → Except WriteError Config} {t : Int}
    (hm : ∀ x, m = .ok x → x.tokenTTL = t)
    (hf : ∀ x y, f x = .ok y → y.tokenTTL = x.tokenTTL) :
    ∀ y, Except.bind m f = .ok y → y.tokenTTL = t := by
  intro y h
  cases m with
  | error e => exact absurd h (by rw [exbind_err]; intro hc; cases hc)
  | ok x =>
    rw [exbind_ok] at h
    rw [hf x y h]
    exact hm x rfl

/-- When the update carries no `jwt_ttl`, the overlay phase cannot change
`tokenTTL`: every other field assignment leaves it alone. -/
theorem applyFields_tokenTTL (regexOk : String → Bool) (allowedAlgs : List String)
    (allowedBits : List Int) (reserved : List String) (d : UpdateFields) (c : Config)
    (hj : d.jwtTTL = none) :
    ∀ c', applyFields regexOk allowedAlgs allowedBits reserved d c = .ok c' →
      c'.tokenTTL = c.tokenTTL := by
  unfold applyFields
  refine bind_preserves_tokenTTL (fun x hx => applySigAlg_tokenTTL _ _ _ _ hx) ?_
  intro c1 y1
  refine fun h => bind_preserves_tokenTTL
    (fun x hx => applyRSAKeyBits_tokenTTL _ _ _ _ hx) ?_ y1 h
  intro c2 y2
  refine fun h => bind_preserves_tokenTTL
    (fun x hx => applyKeyTTL_tokenTTL _ _ _ hx) ?_ y2 h
  intro c3 y3
  refine fun h => bind_preserves_tokenTTL
    (fun x hx => applyJwtTTL_tokenTTL _ _ _ hj hx) ?_ y3 h
  intro c4 y4
  refine fun h => bind_preserves_tokenTTL
    (fun x hx => applySetIAT_tokenTTL _ _ _ hx) ?_ y4 h
  intro c5 y5
  refine fun h => bind_preserves_tokenTTL
    (fun x hx => applySetJTI_tokenTTL _ _ _ hx) ?_ y5 h
  intro c6 y6
  refine fun h => bind_preserves_tokenTTL
    (fun x hx => applySetNBF_tokenTTL _ _ _ hx) ?_ y6 h
  intro c7 y7
  refine fun h => bind_preserves_tokenTTL
    (fun x hx => applyAudiencePattern_tokenTTL _ _ _ _ hx) ?_ y7 h
  intro c8 y8
  refine fun h => bind_preserves_tokenTTL
    (fun x hx => applySubjectPattern_tokenTTL _ _ _ _ hx) ?_ y8 h
  intro c9 y9
  refine fun h => bind_preserves_tokenTTL
    (fun x hx => applyMaxAudiences_tokenTTL _ _ _ hx) ?_ y9 h
  intro c10 y10
  exact fun h => applyAllowedClaims_tokenTTL _ _ _ _ h

/-- Concrete decoders for the scenario runs: two well-formed PEM strings
that decode and parse, everything else fails. -/
def cdX : Codecs :=
  { base64Decode := fun _ => none
    pemDecode := fun s => if s = "PEM2" then some [2] else if s = "PEM4" then some [4] else none
    parsePKIX := fun bs => bs.head? }

/-- A concrete configuration used by the scenario runs (defaults of the
spec data model with the RS256 algorithm). -/
def cfgX : Config :=
  { signatureAlgorithm := "RS256"
    rsaKeyBits := 2048
    keyRotationPeriod := 300000000000
    tokenTTL := 180000000000
    setIAT := true
    setJTI := true
    setNBF := true
    issuer := ""
    audiencePattern := ""
    subjectPattern := ""
    maxAudiences := -1
    allowedClaims := [] }

/-- The spec scenario snapshot: `minDecryptionVersion = 2`,
`latestVersion = 4`, version 3 pruned from the mapping, versions 2 and 4
carrying decodable PEM keys. -/
def p24 : Policy :=
  { name := "test"
    latestVersion := 4
    minDecryptionVersion := 2
    type := .rsa2048
    keys := [(2, ⟨"PEM2", none⟩), (4, ⟨"PEM4", none⟩)] }

/-- A one-version snapshot whose key triggers the fall-through branch: not
ED25519, empty formatted public key, no RSA key. -/
def p1 : Policy :=
  { name := "p1"
    latestVersion := 1
    minDecryptionVersion := 1
    type := .rsa2048
    keys := [(1, ⟨"", none⟩)] }

/-- C9 counterexample: at the gap snapshot the built key list does contain a
zero-valued padding entry, yet the read operation produces no serialized
response at all — `json.Marshal` fails on that very entry — so the zero
entries are not "included in the serialized response" as the claim
states. -/
theorem c9_marshal_counterexample :
    zeroJWK ∈ getPublicKeys cdX "backend" cfgX p24
    ∧ pathJwksRead cdX "backend" cfgX p24 = none :=
  ⟨by decide, rfl⟩

/-- C9 (amended): the key list built by `getPublicKeys` always has length
exactly `latestVersion - minDecryptionVersion + 1` regardless of gaps or
decode failures; the successfully materialized keys occupy a contiguous
prefix in ascending version order (the entries of the ascending surviving
versions, in iteration order) and every remaining position holds a
zero-valued JWK entry (empty kid, empty use, no key material). Those zero
entries, however, are never included in a serialized response: go-jose
refuses to marshal a JWK with no key material, so whenever a padding slot
exists `pathJwksRead` returns the marshal error and no response, and a
response, when one is produced, serializes the built list verbatim and
contains no zero-valued entry. -/
theorem c9_padded_output (cd : Codecs) (bid : String) (config : Config) (p : Policy)
    (h : p.minDecryptionVersion ≤ p.latestVersion) :
    getPublicKeys cd bid config p =
        buildEntries cd bid config p (versionRange p) ++
          List.replicate
            (keyCount p - (buildEntries cd bid config p (versionRange p)).length) zeroJWK
    ∧ (getPublicKeys cd bid config p).length = keyCount p
    ∧ List.Pairwise (· < ·)
        ((versionRange p).filter (fun v => (materialFor cd p v).isSome))
    ∧ ((buildEntries cd bid config p (versionRange p)).length < keyCount p →
        pathJwksRead cd bid config p = none)
    ∧ (∀ ks, pathJwksRead cd bid config p = some ks →
        ks = getPublicKeys cd bid config p ∧ zeroJWK ∉ ks) := by
  refine ⟨getPublicKeys_eq cd bid config p, ?_, ?_, ?_, ?_⟩
  · rw [getPublicKeys_eq]
    have hle := buildEntries_length_le cd bid config p
    rw [List.length_append, List.length_replicate]
    omega
  · exact List.Pairwise.filter _ (List.pairwise_lt_range' _ _)
  · intro hlt
    have hmem : zeroJWK ∈ getPublicKeys cd bid config p := by
      rw [getPublicKeys_eq]
      apply List.mem_append_right
      rw [List.mem_replicate]
      exact ⟨by omega, rfl⟩
    have hnall : ¬((getPublicKeys cd bid config p).all
        (fun k => !(k.key == KeyMaterial.empty)) = true) := by
      intro hall
      exact absurd (List.all_eq_true.mp hall zeroJWK hmem) (by decide)
    unfold pathJwksRead
    rw [if_neg hnall]
  · intro ks hks
    unfold pathJwksRead at hks
    by_cases hall : (getPublicKeys cd bid config p).all
        (fun k => !(k.key == KeyMaterial.empty)) = true
    · rw [if_pos hall] at hks
      have hk : ks = getPublicKeys cd bid config p := by
        injection hks with h2
        exact h2.symm
      refine ⟨hk, fun hz => ?_⟩
      rw [hk] at hz
      exact absurd (List.all_eq_true.mp hall zeroJWK hz) (by decide)
    · rw [if_neg hall] at hks
      cases hks

theorem c9_padded_output_witness :
    p24.minDecryptionVersion ≤ p24.latestVersion ∧
    (getPublicKeys cdX "backend" cfgX p24 =
        buildEntries cdX "backend" cfgX p24 (versionRange p24) ++
          List.replicate
            (keyCount p24 -
              (buildEntries cdX "backend" cfgX p24 (versionRange p24)).length) zeroJWK
    ∧ (getPublicKeys cdX "backend" cfgX p24).length = keyCount p24
    ∧ List.Pairwise (· < ·)
        ((versionRange p24).filter (fun v => (materialFor cdX p24 v).isSome))
    ∧ ((buildEntries cdX "backend" cfgX p24 (versionRange p24)).length < keyCount p24 →
        pathJwksRead cdX "backend" cfgX p24 = none)
    ∧ (∀ ks, pathJwksRead cdX "backend" cfgX p24 = some ks →
        ks = getPublicKeys cdX "backend" cfgX p24 ∧ zeroJWK ∉ ks)) :=
  ⟨by decide, c9_padded_output cdX "backend" cfgX p24 (by decide)⟩

/-- C1 (evaluation of the code at the failing input): with a gap at version
3, the returned key list still has length equal to the upper bound
`latestVersion - minDecryptionVersion + 1`, so "size equals the bound
exactly when no gaps and no decode failures occurred" fails — the
preallocated zero slots keep the length at the bound always. -/
theorem c1_size_bound_eval :
    (getPublicKeys cdX "backend" cfgX p24).length =
        p24.latestVersion - p24.minDecryptionVersion + 1
    ∧ lookupKey p24 3 = none := by
  constructor
  · rfl
  · rfl

/-- C2 (evaluation of the code at the failing input): the spec scenario
(`minDecryptionVersion = 2`, `latestVersion = 4`, version 3 pruned) yields
three list entries — versions 2 and 4 in order, then a zero-valued JWK —
not exactly two. -/
theorem c2_gap_scenario_eval :
    getPublicKeys cdX "backend" cfgX p24 =
      [mkJWK "backend" cfgX p24 2 (.pkix 2),
       mkJWK "backend" cfgX p24 4 (.pkix 4),
       zeroJWK]
    ∧ (getPublicKeys cdX "backend" cfgX p24).length ≠ 2 := by
  constructor
  · rfl
  · decide

/-- C5 (evaluation of the code at the failing input): the key set returned
for the gap snapshot contains an entry (a zero-valued padding slot) whose
`use` is not `"sig"` and whose algorithm is not the configured one, so the
claim's "every JWK entry" fails on the code. -/
theorem c5_use_alg_eval :
    ∃ k ∈ getPublicKeys cdX "backend" cfgX p24,
      ¬(k.use = "sig" ∧ k.algorithm = cfgX.signatureAlgorithm) := by
  decide

/-- C3 counterexample: a present version with a non-Edwards family, an empty
formatted public key and no RSA key structure does contribute a JWK entry —
the output is not the untouched zero slot, but an entry carrying the derived
key id, the configured algorithm and `use = "sig"` (with no key material). -/
theorem c3_counterexample :
    materialFor cdX p1 1 ≠ none
    ∧ getPublicKeys cdX "backend" cfgX p1 = [mkJWK "backend" cfgX p1 1 .empty]
    ∧ getPublicKeys cdX "backend" cfgX p1 ≠ [zeroJWK] := by
  refine ⟨by decide, rfl, by decide⟩

/-- C3 (amended): for every key version present in the snapshot mapping
whose family is not the Edwards-curve type, whose formatted public key is
empty, and which has no directly-typed RSA key structure, the build
operation still contributes a JWK entry for that version — with no key
material, but with the derived key id, the configured algorithm string and
`use = "sig"` (the Go branch chain assigns no `.Key`, yet control falls
through to the lines that fill the slot and advance the index). -/
theorem c3_fallthrough_contributes (cd : Codecs) (bid : String) (config : Config)
    (p : Policy) (v : Nat) (key : KeyVersion)
    (hl : lookupKey p v = some key) (ht : p.type ≠ KeyType.ed25519)
    (hf : key.formattedPublicKey = "") (hr : key.rsaKey = none) :
    materialFor cd p v = some KeyMaterial.empty
    ∧ (v ∈ versionRange p →
        mkJWK bid config p v KeyMaterial.empty ∈ getPublicKeys cd bid config p) := by
  have hm : materialFor cd p v = some KeyMaterial.empty := by
    unfold materialFor
    rw [hl]
    dsimp only
    rw [if_neg ht, if_neg (show ¬key.formattedPublicKey ≠ "" from by simp [hf]), hr]
  refine ⟨hm, fun hv => ?_⟩
  rw [getPublicKeys_eq]
  apply List.mem_append_left
  unfold buildEntries
  apply List.mem_filterMap.mpr
  exact ⟨v, hv, by rw [hm]; rfl⟩

theorem c3_fallthrough_contributes_witness :
    lookupKey p1 1 = some ⟨"", none⟩
    ∧ p1.type ≠ KeyType.ed25519
    ∧ (materialFor cdX p1 1 = some KeyMaterial.empty
      ∧ (1 ∈ versionRange p1 →
          mkJWK "backend" cfgX p1 1 KeyMaterial.empty ∈ getPublicKeys cdX "backend" cfgX p1)) :=
  ⟨by decide, by decide,
   c3_fallthrough_contributes cdX "backend" cfgX p1 1 ⟨"", none⟩ (by decide) (by decide) rfl rfl⟩

/-- An update carrying no field at all. -/
def emptyUpdate : UpdateFields :=
  ⟨none, none, none, none, none, none, none, none, none, none, none⟩

/-- Sample instantiation of `AllowedSignatureAlgorithmNames` (the set itself
is an external parameter of the validator). -/
def algsX : List String := ["RS256", "RS384", "RS512", "ES256", "ES384", "ES512", "EdDSA"]

/-- Sample instantiation of `AllowedRSAKeyBits`. -/
def bitsX : List Int := [2048, 3072, 4096]

/-- Sample instantiation of `ReservedClaims` (the standard registered claim
names listed by the spec). -/
def resX : List String := ["iss", "sub", "aud", "exp", "nbf", "iat", "jti"]

/-- A `regexp.Compile` oracle under which every pattern compiles. -/
def regexOkX : String → Bool := fun _ => true

/-- An update whose only field is an algorithm outside the allowed set. -/
def dBadAlg : UpdateFields := { emptyUpdate with sigAlg := some "XX" }

/-- A stored configuration whose `tokenTTL` exceeds the small ceilings used
in the witnesses below. -/
def cfgBig : Config := { cfgX with tokenTTL := 100 }

/-- C4: a configuration write is all-or-nothing: whenever any check fails
the handler returns before `saveConfig`, so the stored Config is exactly
what it was, with no field of the update applied; and in particular an
update whose `sig_alg` is outside the allowed set, or whose
`allowed_claims` contains a reserved claim name, is always rejected. -/
theorem c4_all_or_nothing (regexOk : String → Bool) (allowedAlgs : List String)
    (allowedBits : List Int) (reserved : List String) (maxLeaseTTL : Int)
    (stored : Config) (d : UpdateFields) :
    (∀ e, pathConfigWrite regexOk allowedAlgs allowedBits reserved maxLeaseTTL d stored
          = .error e →
        writeStored regexOk allowedAlgs allowedBits reserved maxLeaseTTL d stored = stored)
    ∧ (∀ a, d.sigAlg = some a → a ∉ allowedAlgs →
        ∃ e, pathConfigWrite regexOk allowedAlgs allowedBits reserved maxLeaseTTL d stored
          = .error e)
    ∧ (∀ cs x, d.allowedClaims = some cs → x ∈ cs → x ∈ reserved →
        ∃ e, pathConfigWrite regexOk allowedAlgs allowedBits reserved maxLeaseTTL d stored
          = .error e) := by
  refine ⟨?_, ?_, ?_⟩
  · intro e he
    unfold writeStored
    rw [he]
  · intro a ha hna
    apply exbind_error_left
    unfold applyFields
    apply exbind_error_left
    refine ⟨.invalidRequest
      ("unknown/unsupported signature algorithm, must be one of " ++ formatStringList allowedAlgs), ?_⟩
    unfold applySigAlg
    rw [ha]
    dsimp only
    rw [if_neg hna]
  · intro cs x hcs hx hr
    apply exbind_error_left
    unfold applyFields
    apply exbind_error_chain; intro c1
    apply exbind_error_chain; intro c2
    apply exbind_error_chain; intro c3
    apply exbind_error_chain; intro c4
    apply exbind_error_chain; intro c5
    apply exbind_error_chain; intro c6
    apply exbind_error_chain; intro c7
    apply exbind_error_chain; intro c8
    apply exbind_error_chain; intro c9
    apply exbind_error_chain; intro c10
    exact applyAllowedClaims_error reserved d cs x hcs hx hr c10

theorem c4_all_or_nothing_witness :
    (∃ e, pathConfigWrite regexOkX algsX bitsX resX 4000000000000 dBadAlg cfgX = .error e)
    ∧ writeStored regexOkX algsX bitsX resX 4000000000000 dBadAlg cfgX = cfgX := by
  have h := c4_all_or_nothing regexOkX algsX bitsX resX 4000000000000 cfgX dBadAlg
  obtain ⟨e, he⟩ := h.2.1 "XX" rfl (by decide)
  exact ⟨⟨e, he⟩, h.1 e he⟩

/-- C6: when the overlay phase succeeds and the resulting candidate's
`tokenTTL` exceeds the host-supplied lease-TTL ceiling, the write is
rejected with the error naming the `jwt_ttl` field and the stored Config is
unchanged. -/
theorem c6_ttl_ceiling (regexOk : String → Bool) (allowedAlgs : List String)
    (allowedBits : List Int) (reserved : List String) (maxLeaseTTL : Int)
    (stored : Config) (d : UpdateFields) (cand : Config)
    (h1 : applyFields regexOk allowedAlgs allowedBits reserved d stored = .ok cand)
    (h2 : cand.tokenTTL > maxLeaseTTL) :
    pathConfigWrite regexOk allowedAlgs allowedBits reserved maxLeaseTTL d stored
      = .error (.invalidRequest jwtTTLCeilingMsg)
    ∧ writeStored regexOk allowedAlgs allowedBits reserved maxLeaseTTL d stored = stored := by
  have hw : pathConfigWrite regexOk allowedAlgs allowedBits reserved maxLeaseTTL d stored
      = .error (.invalidRequest jwtTTLCeilingMsg) := by
    unfold pathConfigWrite
    rw [h1, exbind_ok, if_pos h2]
  exact ⟨hw, by unfold writeStored; rw [hw]⟩

theorem c6_ttl_ceiling_witness :
    applyFields regexOkX algsX bitsX resX emptyUpdate cfgBig = .ok cfgBig
    ∧ cfgBig.tokenTTL > 50
    ∧ (pathConfigWrite regexOkX algsX bitsX resX 50 emptyUpdate cfgBig
          = .error (.invalidRequest jwtTTLCeilingMsg)
       ∧ writeStored regexOkX algsX bitsX resX 50 emptyUpdate cfgBig = cfgBig) :=
  ⟨rfl, by decide,
   c6_ttl_ceiling regexOkX algsX bitsX resX 50 cfgBig emptyUpdate cfgBig rfl (by decide)⟩

/-- C10: the `tokenTTL`-versus-ceiling comparison at line 216 is outside
every `GetOk` guard, so it runs on every write; hence a write touching only
unrelated fields (no `jwt_ttl` in the update) is still rejected whenever
the previously stored `tokenTTL` exceeds the current ceiling, and storage
is untouched. -/
theorem c10_ttl_checked_always (regexOk : String → Bool) (allowedAlgs : List String)
    (allowedBits : List Int) (reserved : List String) (maxLeaseTTL : Int)
    (stored : Config) (d : UpdateFields)
    (hj : d.jwtTTL = none) (ht : stored.tokenTTL > maxLeaseTTL) :
    (∃ e, pathConfigWrite regexOk allowedAlgs allowedBits reserved maxLeaseTTL d stored
        = .error e)
    ∧ writeStored regexOk allowedAlgs allowedBits reserved maxLeaseTTL d stored = stored := by
  have herr : ∃ e, pathConfigWrite regexOk allowedAlgs allowedBits reserved maxLeaseTTL d stored
      = .error e := by
    unfold pathConfigWrite
    cases hA : applyFields regexOk allowedAlgs allowedBits reserved d stored with
    | error e => exact ⟨e, by simp only [exbind_err]⟩
    | ok cand =>
      have htt := applyFields_tokenTTL regexOk allowedAlgs allowedBits reserved d stored hj cand hA
      exact ⟨.invalidRequest jwtTTLCeilingMsg,
        by simp only [exbind_ok]
           rw [if_pos (show cand.tokenTTL > maxLeaseTTL by rw [htt]; exact ht)]⟩
  obtain ⟨e, he⟩ := herr
  exact ⟨⟨e, he⟩, by unfold writeStored; rw [he]⟩

theorem c10_ttl_checked_always_witness :
    ({ emptyUpdate with setIAT := some false } : UpdateFields).jwtTTL = none
    ∧ cfgBig.tokenTTL > 50
    ∧ ((∃ e, pathConfigWrite regexOkX algsX bitsX resX 50
            { emptyUpdate with setIAT := some false } cfgBig = .error e)
       ∧ writeStored regexOkX algsX bitsX resX 50
            { emptyUpdate with setIAT := some false } cfgBig = cfgBig) :=
  ⟨rfl, by decide,
   c10_ttl_checked_always regexOkX algsX bitsX resX 50 cfgBig
     { emptyUpdate with setIAT := some false } rfl (by decide)⟩

theorem applySigAlg_ok (allowedAlgs : List String) (d : UpdateFields) (c : Config)
    (hAlg : ∀ a, d.sigAlg = some a → a ∈ allowedAlgs) :
    ∃ c1, applySigAlg allowedAlgs d c = .ok c1 := by
  unfold applySigAlg
  cases hs : d.sigAlg with
  | none => exact ⟨c, rfl⟩
  | some a =>
    refine ⟨{ c with signatureAlgorithm := a }, ?_⟩
    dsimp only
    rw [if_pos (hAlg a hs)]

theorem applyRSAKeyBits_ok (allowedBits : List Int) (d : UpdateFields) (c : Config)
    (hBits : ∀ b, d.rsaKeyBits = some b → b ∈ allowedBits) :
    ∃ c1, applyRSAKeyBits allowedBits d c = .ok c1 := by
  unfold applyRSAKeyBits
  cases hs : d.rsaKeyBits with
  | none => exact ⟨c, rfl⟩
  | some b =>
    refine ⟨{ c with rsaKeyBits := b }, ?_⟩
    dsimp only
    rw [if_pos (hBits b hs)]

theorem applyKeyTTL_ok (d : UpdateFields) (c : Config)
    (hk : ∀ t, d.keyTTL = some t → goParseDuration t ≠ none) :
    ∃ c1, applyKeyTTL d c = .ok c1 := by
  unfold applyKeyTTL
  cases hs : d.keyTTL with
  | none => exact ⟨c, rfl⟩
  | some t =>
    cases hq : goParseDuration t with
    | none => exact absurd hq (hk t hs)
    | some dur =>
      refine ⟨{ c with keyRotationPeriod := dur }, ?_⟩
      dsimp only
      rw [hq]

/-- C8 (amended): an update whose `key_ttl` or `jwt_ttl` fails to parse as a
duration is rejected with the raw parse error and no response
(`return nil, err`) — an internal failure, not the ValidationError shape of
the other per-field checks — and nothing is persisted, the prior Config
unchanged (stated under passing `sig_alg` / `rsa_key_bits` checks, which
run first). -/
theorem c8_duration_internal_error (regexOk : String → Bool) (allowedAlgs : List String)
    (allowedBits : List Int) (reserved : List String) (maxLeaseTTL : Int)
    (stored : Config) (d : UpdateFields) (s : String)
    (hAlg : ∀ a, d.sigAlg = some a → a ∈ allowedAlgs)
    (hBits : ∀ b, d.rsaKeyBits = some b → b ∈ allowedBits)
    (hp : goParseDuration s = none) :
    (d.keyTTL = some s →
        pathConfigWrite regexOk allowedAlgs allowedBits reserved maxLeaseTTL d stored
          = .error .internalErr
        ∧ writeStored regexOk allowedAlgs allowedBits reserved maxLeaseTTL d stored = stored)
    ∧ (d.jwtTTL = some s → (∀ t, d.keyTTL = some t → goParseDuration t ≠ none) →
        pathConfigWrite regexOk allowedAlgs allowedBits reserved maxLeaseTTL d stored
          = .error .internalErr
        ∧ writeStored regexOk allowedAlgs allowedBits reserved maxLeaseTTL d stored = stored) := by
  constructor
  · intro hkey
    have hfields : applyFields regexOk allowedAlgs allowedBits reserved d stored
        = .error .internalErr := by
      obtain ⟨c1, h1⟩ := applySigAlg_ok allowedAlgs d stored hAlg
      obtain ⟨c2, h2⟩ := applyRSAKeyBits_ok allowedBits d c1 hBits
      have h3 : applyKeyTTL d c2 = .error .internalErr := by
        unfold applyKeyTTL
        rw [hkey]
        dsimp only
        rw [hp]
      unfold applyFields
      simp only [h1, exbind_ok, h2, h3, exbind_err]
    have hw : pathConfigWrite regexOk allowedAlgs allowedBits reserved maxLeaseTTL d stored
        = .error .internalErr := by
      unfold pathConfigWrite
      rw [hfields, exbind_err]
    exact ⟨hw, by unfold writeStored; rw [hw]⟩
  · intro hjwt hkOk
    have hfields : applyFields regexOk allowedAlgs allowedBits reserved d stored
        = .error .internalErr := by
      obtain ⟨c1, h1⟩ := applySigAlg_ok allowedAlgs d stored hAlg
      obtain ⟨c2, h2⟩ := applyRSAKeyBits_ok allowedBits d c1 hBits
      obtain ⟨c3, h3⟩ := applyKeyTTL_ok d c2 hkOk
      have h4 : applyJwtTTL d c3 = .error .internalErr := by
        unfold applyJwtTTL
        rw [hjwt]
        dsimp only
        rw [hp]
      unfold applyFields
      simp only [h1, exbind_ok, h2, h3, h4, exbind_err]
    have hw : pathConfigWrite regexOk allowedAlgs allowedBits reserved maxLeaseTTL d stored
        = .error .internalErr := by
      unfold pathConfigWrite
      rw [hfields, exbind_err]
    exact ⟨hw, by unfold writeStored; rw [hw]⟩

/-- An update whose only field is a `key_ttl` that does not parse. -/
def dBadKeyTTL : UpdateFields := { emptyUpdate with keyTTL := some "bogus" }

/-- C8 counterexample: the duration-parse failure is surfaced as the
internal-error shape (`nil` response, raw error), not as the
ErrorResponse-plus-`ErrInvalidRequest` shape of the other per-field check
failures. -/
theorem c8_counterexample :
    pathConfigWrite regexOkX algsX bitsX resX 4000000000000 dBadKeyTTL cfgX
      = .error .internalErr
    ∧ isValidationResponse
        (pathConfigWrite regexOkX algsX bitsX resX 4000000000000 dBadKeyTTL cfgX) = false := by
  exact ⟨rfl, rfl⟩

theorem c8_duration_internal_error_witness :
    dBadKeyTTL.keyTTL = some "bogus"
    ∧ goParseDuration "bogus" = none
    ∧ (pathConfigWrite regexOkX algsX bitsX resX 4000000000000 dBadKeyTTL cfgX
        = .error .internalErr
      ∧ writeStored regexOkX algsX bitsX resX 4000000000000 dBadKeyTTL cfgX = cfgX) :=
  ⟨rfl, by decide,
   (c8_duration_internal_error regexOkX algsX bitsX resX 4000000000000 cfgX dBadKeyTTL "bogus"
     (fun a ha => by cases ha) (fun b hb => by cases hb) (by decide)).1 rfl⟩

/-- A full update setting every field the handler consults to legal values,
with a non-canonical `key_ttl` of ninety minutes. -/
def dFull : UpdateFields :=
  { sigAlg := some "RS256"
    rsaKeyBits := some 2048
    keyTTL := some "90m"
    jwtTTL := some "1h0m0s"
    setIAT := some true
    setJTI := some false
    setNBF := some true
    audiencePattern := some "aud.*"
    subjectPattern := some "sub.*"
    maxAudiences := some (-1)
    allowedClaims := some ["foo"] }

/-- C7 counterexample: writing the legal value `"90m"` for `key_ttl`
succeeds, but the following read renders the stored duration canonically as
`"1h30m0s"`, so the read does not return exactly the written values. -/
theorem c7_counterexample :
    (∃ c, pathConfigWrite regexOkX algsX bitsX resX 4000000000000 dFull cfgX = .ok c)
    ∧ (configResponse (writeStored regexOkX algsX bitsX resX 4000000000000 dFull cfgX)).keyTTL
        = "1h30m0s"
    ∧ configResponse (writeStored regexOkX algsX bitsX resX 4000000000000 dFull cfgX) ≠
        { sigAlg := "RS256", rsaKeyBits := 2048, keyTTL := "90m", jwtTTL := "1h0m0s",
          setIAT := true, setJTI := false, setNBF := true, audiencePattern := "aud.*",
          subjectPattern := "sub.*", maxAudiences := -1, allowedClaims := ["foo"] } := by
  refine ⟨⟨writeStored regexOkX algsX bitsX resX 4000000000000 dFull cfgX, rfl⟩, rfl, by decide⟩

/-- C7 (amended): writing every consulted field to legal values and then
reading returns exactly those values — the algorithm string, the RSA bits,
the three booleans, both regex pattern strings, `max_audiences = -1` and the
allowed-claims list verbatim — while the two duration fields are returned as
the canonical `Duration.String()` rendering of their parse, which equals the
written string exactly when that string is canonical (as hypothesised
here). -/
theorem c7_roundtrip_amended (regexOk : String → Bool) (allowedAlgs : List String)
    (allowedBits : List Int) (reserved : List String) (maxLeaseTTL : Int) (stored : Config)
    (a : String) (ha : a ∈ allowedAlgs) (rb : Int) (hrb : rb ∈ allowedBits)
    (kttl jttl : String) (dk dj : Int)
    (hk : goParseDuration kttl = some dk) (hkc : goDurationString dk = kttl)
    (hj : goParseDuration jttl = some dj) (hjc : goDurationString dj = jttl)
    (iat jti nbf : Bool) (ap sp : String)
    (hap : regexOk ap = true) (hsp : regexOk sp = true)
    (cs : List String) (hcs : findReserved reserved cs = none)
    (httl : ¬dj > maxLeaseTTL) :
    configResponse (writeStored regexOk allowedAlgs allowedBits reserved maxLeaseTTL
        ⟨some a, some rb, some kttl, some jttl, some iat, some jti, some nbf,
         some ap, some sp, some (-1), some cs⟩ stored) =
      { sigAlg := a, rsaKeyBits := rb, keyTTL := kttl, jwtTTL := jttl,
        setIAT := iat, setJTI := jti, setNBF := nbf, audiencePattern := ap,
        subjectPattern := sp, maxAudiences := -1, allowedClaims := cs } := by
  have hw : pathConfigWrite regexOk allowedAlgs allowedBits reserved maxLeaseTTL
      ⟨some a, some rb, some kttl, some jttl, some iat, some jti, some nbf,
       some ap, some sp, some (-1), some cs⟩ stored =
      .ok { signatureAlgorithm := a, rsaKeyBits := rb, keyRotationPeriod := dk,
            tokenTTL := dj, setIAT := iat, setJTI := jti, setNBF := nbf,
            issuer := stored.issuer, audiencePattern := ap, subjectPattern := sp,
            maxAudiences := -1, allowedClaims := cs } := by
    simp only [pathConfigWrite, applyFields, applySigAlg, applyRSAKeyBits, applyKeyTTL,
      applyJwtTTL, applySetIAT, applySetJTI, applySetNBF, applyAudiencePattern,
      applySubjectPattern, applyMaxAudiences, applyAllowedClaims,
      ha, hrb, hk, hj, hap, hsp, hcs, if_true, exbind_ok]
    rw [if_neg httl]
  unfold writeStored
  rw [hw]
  simp only [configResponse]
  rw [hkc, hjc]

theorem c7_roundtrip_amended_witness :
    ("RS256" ∈ algsX ∧ (2048 : Int) ∈ bitsX
      ∧ goParseDuration "1h0m0s" = some 3600000000000
      ∧ goDurationString 3600000000000 = "1h0m0s"
      ∧ regexOkX "aud.*" = true ∧ findReserved resX ["foo"] = none
      ∧ ¬(3600000000000 : Int) > 4000000000000)
    ∧ configResponse (writeStored regexOkX algsX bitsX resX 4000000000000
        ⟨some "RS256", some 2048, some "1h0m0s", some "1h0m0s", some true, some false,
         some true, some "aud.*", some "sub.*", some (-1), some ["foo"]⟩ cfgX) =
      { sigAlg := "RS256", rsaKeyBits := 2048, keyTTL := "1h0m0s", jwtTTL := "1h0m0s",
        setIAT := true, setJTI := false, setNBF := true, audiencePattern := "aud.*",
        subjectPattern := "sub.*", maxAudiences := -1, allowedClaims := ["foo"] } :=
  ⟨⟨by decide, by decide, by decide, by decide, rfl, by decide, by decide⟩,
   c7_roundtrip_amended regexOkX algsX bitsX resX 4000000000000 cfgX
     "RS256" (by decide) 2048 (by decide) "1h0m0s" "1h0m0s" 3600000000000 3600000000000
     (by decide) (by decide) (by decide) (by decide) true false true "aud.*" "sub.*" rfl rfl
     ["foo"] (by decide) (by decide)⟩

end JwtSecrets
